import Mathlib

/-!
Shallow embedding of the rnacanvas.forms repository
(src/FormFronter.ts and src/DragTranslater.ts).

DOM nodes are modelled as paths from the root of the document tree
(a node is identified by the list of child indices leading to it),
so that the DOM method Node.contains becomes the path-extension test.

The inline translate CSS property of the target form is modelled as an
inductive value: either unset (the initial empty string, which the
rendering engine treats as no translation) or a px pair, standing for
the string made of the x component, the unit px, a space, the y
component and the unit px, which is the only shape of string the code
ever writes.  getBoundingClientRect is modelled by the untranslated
layout position of the form plus the interpreted translate value.
Numbers are rationals.
-/

/-- A DOM node, identified by its path from the document root. -/
abbrev Node := List Nat

/-- Node.contains from the DOM: true when the other node is this node
itself or a descendant of it.  With nodes as root paths this is the
path-extension test. -/
def nodeContains : Node → Node → Bool
  | [], _ => true
  | _ :: _, [] => false
  | a :: as, b :: bs => a == b && nodeContains as bs

/-- The Vector type of src/DragTranslater.ts: a pair of coordinates. -/
@[ext]
structure Vector where
  x : ℚ
  y : ℚ
deriving DecidableEq

instance : Add Vector := ⟨fun a b => ⟨a.x + b.x, a.y + b.y⟩⟩

theorem Vector.add_def (a b : Vector) : a + b = ⟨a.x + b.x, a.y + b.y⟩ := rfl

/-- The value of the inline translate CSS property of the target form.
unset is the initial empty string; px v stands for the string written
by the code, made of the two coordinates of v each followed by px. -/
inductive TranslateValue where
  | unset
  | px (v : Vector)
deriving DecidableEq

/-- How the rendering engine interprets the translate property when
laying out the form: unset means no translation. -/
def interpTranslate : TranslateValue → Vector
  | .unset => ⟨0, 0⟩
  | .px v => v

/-- The state of the target form that the DragTranslater code touches:
its untranslated layout position (the origin its bounding client rect
would have under zero translation) and its inline translate property. -/
structure FormState where
  base : Vector
  translate : TranslateValue
deriving DecidableEq

/-- getBoundingClientRect of the target form: the untranslated layout
position shifted by the interpreted translate property. -/
def boundingClientRectPos (f : FormState) : Vector :=
  f.base + interpTranslate f.translate

/-- The currentTranslation getter of DragTranslater
(src/DragTranslater.ts lines 183-205): read the bounding client rect,
cache the translate property, force the translate property to the zero
px pair, read the bounding client rect again, restore the cached
translate property, and return the coordinate-wise difference.  Returns
the vector together with the form state after the getter runs. -/
def getCurrentTranslation (f : FormState) : Vector × FormState :=
  let translatedX := (boundingClientRectPos f).x
  let translatedY := (boundingClientRectPos f).y
  let translate := f.translate
  let f1 : FormState := { f with translate := .px ⟨0, 0⟩ }
  let untranslatedX := (boundingClientRectPos f1).x
  let untranslatedY := (boundingClientRectPos f1).y
  let f2 : FormState := { f1 with translate := translate }
  (⟨translatedX - untranslatedX, translatedY - untranslatedY⟩, f2)

/-- The currentTranslation setter (src/DragTranslater.ts lines
207-209): write the vector as a px pair into the translate property. -/
def setCurrentTranslation (v : Vector) (f : FormState) : FormState :=
  { f with translate := .px v }

/-- A MouseEvent as the code consumes it: the event target (none when
the target is null or not a Node, which is what the instanceof Node
test rejects) and the movementX and movementY deltas. -/
structure MouseEvent where
  target : Option Node
  movementX : ℚ
  movementY : ℚ
deriving DecidableEq

/-- The interactionDepth field of the second DragTranslater class
(src/DragTranslater.ts line 161), a two-valued string union. -/
inductive InteractionDepth where
  | shallow
  | deep
deriving DecidableEq

/-- The full state a DragTranslater instance reads and writes: its own
fields (lastMouseDown, mouseIsDown, interactionDepth, targetForm) plus
the state of the target form it mutates.  The first class in the source
has no interactionDepth field; it is embedded over the same state type
and simply never reads that field. -/
structure DTState where
  lastMouseDown : Option MouseEvent
  mouseIsDown : Bool
  interactionDepth : InteractionDepth
  targetForm : Node
  form : FormState
deriving DecidableEq

/-- handleMouseDown (src/DragTranslater.ts lines 218-222): record the
event and set mouseIsDown, unconditionally. -/
def handleMouseDown (event : MouseEvent) (s : DTState) : DTState :=
  { s with lastMouseDown := some event, mouseIsDown := true }

/-- handleMouseUp (src/DragTranslater.ts lines 244-246): clear
mouseIsDown, unconditionally. -/
def handleMouseUp (_event : MouseEvent) (s : DTState) : DTState :=
  { s with mouseIsDown := false }

/-- The accumulation step shared by both handleMouseMove versions
(src/DragTranslater.ts lines 98-103 and 236-241): read
currentTranslation through the getter, then write back the read vector
plus the movement deltas of the event through the setter. -/
def applyDelta (event : MouseEvent) (s : DTState) : DTState :=
  let r := getCurrentTranslation s.form
  let currentTranslation := r.1
  let updated : Vector :=
    ⟨currentTranslation.x + event.movementX,
     currentTranslation.y + event.movementY⟩
  { s with form := setCurrentTranslation updated r.2 }

/-- handleMouseMove of the second DragTranslater class
(src/DragTranslater.ts lines 224-242): return early when the mouse is
not down, when no mouse down event is recorded, or when the recorded
target is not a Node; then gate on interactionDepth (shallow: the
recorded target must be the target form itself; deep: the target form
must contain the recorded target); otherwise accumulate the deltas. -/
def handleMouseMove (event : MouseEvent) (s : DTState) : DTState :=
  if s.mouseIsDown = false then s
  else
    match s.lastMouseDown with
    | none => s
    | some lastMouseDown =>
      match lastMouseDown.target with
      | none => s
      | some target =>
        if s.interactionDepth = InteractionDepth.shallow then
          if target ≠ s.targetForm then s
          else applyDelta event s
        else
          if nodeContains s.targetForm target = false then s
          else applyDelta event s

/-- handleMouseMove of the first DragTranslater class
(src/DragTranslater.ts lines 92-104): return early when the mouse is
not down or no mouse down event is recorded; return early unless the
recorded target is exactly the target form (a null or non-Node target
is never identical to the target form); otherwise accumulate. -/
def handleMouseMoveV1 (event : MouseEvent) (s : DTState) : DTState :=
  if s.mouseIsDown = false then s
  else
    match s.lastMouseDown with
    | none => s
    | some lastMouseDown =>
      if lastMouseDown.target ≠ some s.targetForm then s
      else applyDelta event s

/-- untranslate (src/DragTranslater.ts lines 214-216): set the
translate property of the target form to the zero px pair. -/
def untranslate (s : DTState) : DTState :=
  { s with form := { s.form with translate := .px ⟨0, 0⟩ } }

/-- Whether the recorded mouse down target qualifies the drag for the
target form: this is the condition under which handleMouseMove reaches
its accumulation step, read off from its guards. -/
def originQualifies (depth : InteractionDepth) (targetForm : Node) :
    Option Node → Bool
  | none => false
  | some n =>
    match depth with
    | .shallow => n == targetForm
    | .deep => nodeContains targetForm n

/-- A whole drag session: a mouse down event, then a list of mouse move
events folded through handleMouseMove, then a mouse up event. -/
def runDrag (s : DTState) (down : MouseEvent) (moves : List MouseEvent)
    (up : MouseEvent) : DTState :=
  handleMouseUp up
    (moves.foldl (fun t m => handleMouseMove m t) (handleMouseDown down s))

/-- The coordinate-wise sum of the movement deltas of a list of mouse
move events. -/
def sumDeltas : List MouseEvent → Vector
  | [] => ⟨0, 0⟩
  | m :: ms => ⟨m.movementX + (sumDeltas ms).x, m.movementY + (sumDeltas ms).y⟩

/-- FormFronter (src/FormFronter.ts): appendChild of the DOM on the
children list of the parent node, when the appended node is already a
child of that parent: remove it from its current position and reinsert
it at the end. -/
def appendChild {α : Type} [DecidableEq α] (children : List α) (node : α) :
    List α :=
  children.erase node ++ [node]

/-- bringToFront (src/FormFronter.ts lines 10-21).  The parent node of
the target form is modelled by its children list when present and by
none when the target form has no parent.  No parent: return.  The last
child is the target form: return.  Otherwise append the target form as
the last child. -/
def bringToFront {α : Type} [DecidableEq α] (targetForm : α)
    (parentNode : Option (List α)) : Option (List α) :=
  match parentNode with
  | none => none
  | some children =>
    if children.getLast? = some targetForm then some children
    else some (appendChild children targetForm)

/-! ## Helper lemmas -/

theorem Vector.add_zero_right (a : Vector) : a + (⟨0, 0⟩ : Vector) = a := by
  ext <;> simp [Vector.add_def]

theorem Vector.add_assoc_v (a b c : Vector) : a + b + c = a + (b + c) := by
  ext <;> simp [Vector.add_def] <;> ring

theorem getCurrentTranslation_fst (f : FormState) :
    (getCurrentTranslation f).1 = interpTranslate f.translate := by
  ext <;>
    simp [getCurrentTranslation, boundingClientRectPos, interpTranslate,
      Vector.add_def]

theorem getCurrentTranslation_snd (f : FormState) :
    (getCurrentTranslation f).2 = f :=
  rfl

theorem applyDelta_eq (event : MouseEvent) (s : DTState) :
    applyDelta event s =
      { s with form := { s.form with translate := (TranslateValue.px
          ((getCurrentTranslation s.form).1 +
            ⟨event.movementX, event.movementY⟩)) } } := by
  simp only [applyDelta, setCurrentTranslation, getCurrentTranslation_snd,
    Vector.add_def]

theorem handleMouseMove_nonqualifying (m : MouseEvent) (s : DTState)
    (e0 : MouseEvent) (hl : s.lastMouseDown = some e0)
    (hq : originQualifies s.interactionDepth s.targetForm e0.target = false) :
    handleMouseMove m s = s := by
  unfold handleMouseMove
  rw [hl]
  cases hmd : s.mouseIsDown with
  | false => simp
  | true =>
    simp only [Bool.true_eq_false, if_false]
    cases ht : e0.target with
    | none => rfl
    | some n =>
      rw [ht] at hq
      cases hdep : s.interactionDepth with
      | shallow =>
        rw [hdep] at hq
        simp only [originQualifies, beq_eq_false_iff_ne, ne_eq] at hq
        simp [hq]
      | deep =>
        rw [hdep] at hq
        simp only [originQualifies] at hq
        simp [hq]

theorem handleMouseMove_qualifying (m : MouseEvent) (s : DTState)
    (e0 : MouseEvent) (hd : s.mouseIsDown = true)
    (hl : s.lastMouseDown = some e0)
    (hq : originQualifies s.interactionDepth s.targetForm e0.target = true) :
    handleMouseMove m s =
      { s with form := { s.form with translate := (TranslateValue.px
          ((getCurrentTranslation s.form).1 +
            ⟨m.movementX, m.movementY⟩)) } } := by
  unfold handleMouseMove
  rw [hl, hd]
  simp only [Bool.true_eq_false, if_false]
  cases ht : e0.target with
  | none => rw [ht] at hq; simp [originQualifies] at hq
  | some n =>
    rw [ht] at hq
    cases hdep : s.interactionDepth with
    | shallow =>
      rw [hdep] at hq
      simp only [originQualifies, beq_iff_eq] at hq
      simp [hq, applyDelta_eq]
      exact ⟨hl, hd, hdep⟩
    | deep =>
      rw [hdep] at hq
      simp only [originQualifies] at hq
      simp [hq, applyDelta_eq]
      exact ⟨hl, hd, hdep⟩

theorem foldl_moves_nonqualifying (e0 : MouseEvent) (moves : List MouseEvent)
    (s : DTState) (hl : s.lastMouseDown = some e0)
    (hq : originQualifies s.interactionDepth s.targetForm e0.target = false) :
    moves.foldl (fun t m => handleMouseMove m t) s = s := by
  induction moves with
  | nil => rfl
  | cons m ms ih =>
    rw [List.foldl_cons, handleMouseMove_nonqualifying m s e0 hl hq]
    exact ih

theorem foldl_moves_qualifying (e0 : MouseEvent) (moves : List MouseEvent)
    (s : DTState) (hd : s.mouseIsDown = true) (hl : s.lastMouseDown = some e0)
    (hq : originQualifies s.interactionDepth s.targetForm e0.target = true) :
    (getCurrentTranslation
        (moves.foldl (fun t m => handleMouseMove m t) s).form).1 =
      (getCurrentTranslation s.form).1 + sumDeltas moves ∧
    (moves.foldl (fun t m => handleMouseMove m t) s).mouseIsDown =
      s.mouseIsDown ∧
    (moves.foldl (fun t m => handleMouseMove m t) s).lastMouseDown =
      s.lastMouseDown ∧
    (moves.foldl (fun t m => handleMouseMove m t) s).interactionDepth =
      s.interactionDepth ∧
    (moves.foldl (fun t m => handleMouseMove m t) s).targetForm =
      s.targetForm := by
  induction moves generalizing s with
  | nil => simp [sumDeltas, Vector.add_zero_right]
  | cons m ms ih =>
    rw [List.foldl_cons, handleMouseMove_qualifying m s e0 hd hl hq]
    obtain ⟨h1, h2, h3, h4, h5⟩ :=
      ih { s with form := { s.form with translate := (TranslateValue.px
            ((getCurrentTranslation s.form).1 +
              ⟨m.movementX, m.movementY⟩)) } } hd hl hq
    refine ⟨?_, h2, h3, h4, h5⟩
    rw [h1, getCurrentTranslation_fst]
    ext <;> simp [interpTranslate, sumDeltas, Vector.add_def] <;> ring

/-! ## Concrete sample data for the closed witnesses -/

/-- A sample idle state: the target form is the node at path 0 and its
translate property is initially unset. -/
def sampleState : DTState :=
  { lastMouseDown := none, mouseIsDown := false,
    interactionDepth := InteractionDepth.shallow, targetForm := [0],
    form := { base := ⟨5, 7⟩, translate := TranslateValue.unset } }

/-- The sample state with interactionDepth set to deep. -/
def sampleDeepState : DTState :=
  { sampleState with interactionDepth := InteractionDepth.deep }

/-- A sample state with a recorded mouse down whose target is not a
Node and with the mouse held down. -/
def samplePressedNonNode : DTState :=
  { sampleState with lastMouseDown := some ⟨none, 0, 0⟩, mouseIsDown := true }

/-- A sample mouse down event landing on the target form itself. -/
def sampleDown : MouseEvent := ⟨some [0], 0, 0⟩

/-- A sample mouse down event landing on a child of the target form. -/
def sampleChildDown : MouseEvent := ⟨some [0, 1], 0, 0⟩

/-- Two sample mouse move events. -/
def sampleMoves : List MouseEvent := [⟨some [3], 1, 2⟩, ⟨none, 3, 4⟩]

/-- A sample mouse up event. -/
def sampleUp : MouseEvent := ⟨none, 0, 0⟩

/-- Assigning the public interactionDepth field of a DragTranslater,
which client code may do at any time, including while a press is held. -/
def withDepth (d : InteractionDepth) (s : DTState) : DTState :=
  { s with interactionDepth := d }

/-! ## Claim theorems -/

/-- C1: a press-start whose origin qualifies for the target form,
followed by any list of move events, followed by a press-end, leaves
the target form with a final translation equal to the pre-drag
translation plus the coordinate-wise sum of all the move deltas, each
delta applied exactly once. -/
theorem C1_drag_accumulation (s : DTState) (down : MouseEvent)
    (moves : List MouseEvent) (up : MouseEvent)
    (hq : originQualifies s.interactionDepth s.targetForm down.target = true) :
    (getCurrentTranslation (runDrag s down moves up).form).1 =
      (getCurrentTranslation s.form).1 + sumDeltas moves := by
  unfold runDrag
  obtain ⟨h1, _, _, _, _⟩ :=
    foldl_moves_qualifying down moves (handleMouseDown down s) rfl rfl hq
  exact h1

/-- Witness for C1 at a concrete drag session. -/
theorem C1_drag_accumulation_witness :
    originQualifies sampleState.interactionDepth sampleState.targetForm
        sampleDown.target = true ∧
    (getCurrentTranslation
        (runDrag sampleState sampleDown sampleMoves sampleUp).form).1 =
      (getCurrentTranslation sampleState.form).1 + sumDeltas sampleMoves :=
  ⟨by decide,
   C1_drag_accumulation sampleState sampleDown sampleMoves sampleUp
     (by decide)⟩

/-- C2: for a press-start whose origin is a strict descendant of the
target form, subsequent moves while pressed leave the form untouched in
shallow mode and accumulate the full sum of the deltas in deep mode. -/
theorem C2_depth_gating (s : DTState) (down : MouseEvent)
    (moves : List MouseEvent) (up : MouseEvent) (n : Node)
    (ht : down.target = some n) (hne : n ≠ s.targetForm)
    (hdesc : nodeContains s.targetForm n = true) :
    (s.interactionDepth = InteractionDepth.shallow →
      (runDrag s down moves up).form = s.form) ∧
    (s.interactionDepth = InteractionDepth.deep →
      (getCurrentTranslation (runDrag s down moves up).form).1 =
        (getCurrentTranslation s.form).1 + sumDeltas moves) := by
  constructor
  · intro hdep
    unfold runDrag
    have hq : originQualifies s.interactionDepth s.targetForm
        down.target = false := by
      rw [hdep, ht]
      simp only [originQualifies, beq_eq_false_iff_ne, ne_eq]
      exact hne
    rw [foldl_moves_nonqualifying down moves (handleMouseDown down s) rfl hq]
    rfl
  · intro hdep
    have hq : originQualifies s.interactionDepth s.targetForm
        down.target = true := by
      rw [hdep, ht]
      simpa only [originQualifies] using hdesc
    unfold runDrag
    obtain ⟨h1, _, _, _, _⟩ :=
      foldl_moves_qualifying down moves (handleMouseDown down s) rfl rfl hq
    exact h1

/-- Witness for C2 at a concrete press on a child of the target form. -/
theorem C2_depth_gating_witness :
    sampleChildDown.target = some [0, 1] ∧
    ([0, 1] : Node) ≠ sampleState.targetForm ∧
    nodeContains sampleState.targetForm [0, 1] = true ∧
    (runDrag sampleState sampleChildDown sampleMoves sampleUp).form =
      sampleState.form ∧
    (getCurrentTranslation
        (runDrag sampleDeepState sampleChildDown sampleMoves sampleUp).form).1 =
      (getCurrentTranslation sampleDeepState.form).1 + sumDeltas sampleMoves :=
  ⟨rfl, by decide, by decide,
   (C2_depth_gating sampleState sampleChildDown sampleMoves sampleUp [0, 1]
      rfl (by decide) (by decide)).1 rfl,
   (C2_depth_gating sampleDeepState sampleChildDown sampleMoves sampleUp [0, 1]
      rfl (by decide) (by decide)).2 rfl⟩

/-- C3: a qualifying press on a target element with a parent makes the
element the last child of the parent, and pressing again immediately
afterwards changes nothing: the front-bringing operation is
idempotent. -/
theorem C3_bringToFront_fronts_idempotent {α : Type} [DecidableEq α]
    (e : α) (cs : List α) (_hmem : e ∈ cs) (_hlen : 2 ≤ cs.length) :
    (∃ cs2, bringToFront e (some cs) = some cs2 ∧ cs2.getLast? = some e) ∧
    bringToFront e (bringToFront e (some cs)) = bringToFront e (some cs) := by
  by_cases h : cs.getLast? = some e
  · constructor
    · exact ⟨cs, by simp [bringToFront, h], h⟩
    · simp [bringToFront, h]
  · have hlast : (appendChild cs e).getLast? = some e := by
      simp [appendChild, List.getLast?_append_cons]
    constructor
    · exact ⟨appendChild cs e, by simp [bringToFront, h], hlast⟩
    · simp [bringToFront, h, hlast]

/-- Witness for C3 at a concrete three-child parent. -/
theorem C3_bringToFront_witness :
    (1 ∈ ([2, 1, 3] : List ℕ)) ∧ 2 ≤ ([2, 1, 3] : List ℕ).length ∧
    ((∃ cs2, bringToFront 1 (some [2, 1, 3]) = some cs2 ∧
        cs2.getLast? = some 1) ∧
      bringToFront 1 (bringToFront 1 (some ([2, 1, 3] : List ℕ))) =
        bringToFront 1 (some [2, 1, 3])) :=
  ⟨by decide, by decide,
   C3_bringToFront_fronts_idempotent 1 [2, 1, 3] (by decide) (by decide)⟩

/-- C4: the defensive branches are silent no-ops: bringToFront on an
element with no parent mutates nothing, and handleMouseMove with no
recorded mouse down, or with a recorded mouse down whose target is not
a Node, returns the state unchanged.  All handlers are total
functions. -/
theorem C4_defensive_noop :
    (∀ e : Node, bringToFront e (none : Option (List Node)) = none) ∧
    (∀ (ev : MouseEvent) (s : DTState), s.lastMouseDown = none →
      handleMouseMove ev s = s) ∧
    (∀ (ev lmd : MouseEvent) (s : DTState), s.lastMouseDown = some lmd →
      lmd.target = none → handleMouseMove ev s = s) := by
  refine ⟨fun _ => rfl, ?_, ?_⟩
  · intro ev s h
    unfold handleMouseMove
    rw [h]
    cases s.mouseIsDown <;> simp
  · intro ev lmd s h ht
    unfold handleMouseMove
    rw [h]
    cases s.mouseIsDown <;> simp [ht]

/-- Witness for C4 at concrete states. -/
theorem C4_defensive_noop_witness :
    bringToFront ([0] : Node) (none : Option (List Node)) = none ∧
    handleMouseMove ⟨some [0], 1, 1⟩ sampleState = sampleState ∧
    handleMouseMove ⟨some [0], 1, 1⟩ samplePressedNonNode =
      samplePressedNonNode :=
  ⟨C4_defensive_noop.1 [0],
   C4_defensive_noop.2.1 ⟨some [0], 1, 1⟩ sampleState rfl,
   C4_defensive_noop.2.2 ⟨some [0], 1, 1⟩ ⟨none, 0, 0⟩ samplePressedNonNode
     rfl rfl⟩

/-- C5: writing a vector through the currentTranslation setter and
then reading through the currentTranslation getter yields the same
vector back: the write then read round trip is the identity. -/
theorem C5_roundtrip (v : Vector) (f : FormState) :
    (getCurrentTranslation (setCurrentTranslation v f)).1 = v := by
  rw [getCurrentTranslation_fst]
  rfl

/-- C6: after untranslate, reading currentTranslation yields the zero
vector, whatever was accumulated before, and the mouseIsDown and
lastMouseDown fields are left unchanged. -/
theorem C6_untranslate_resets (s : DTState) :
    (getCurrentTranslation (untranslate s).form).1 = ⟨0, 0⟩ ∧
    (untranslate s).mouseIsDown = s.mouseIsDown ∧
    (untranslate s).lastMouseDown = s.lastMouseDown := by
  refine ⟨?_, rfl, rfl⟩
  rw [getCurrentTranslation_fst]
  rfl

/-- C7: a move event handled in any state with mouseIsDown false (press
never started, or the press-end already fired) leaves the whole state,
and in particular the translate style of the target form, unchanged;
and handleMouseUp always leaves mouseIsDown false. -/
theorem C7_idle_moves_no_mutation :
    (∀ (ev : MouseEvent) (s : DTState), s.mouseIsDown = false →
      handleMouseMove ev s = s) ∧
    (∀ (ev : MouseEvent) (s : DTState),
      (handleMouseUp ev s).mouseIsDown = false) := by
  constructor
  · intro ev s h
    unfold handleMouseMove
    rw [h]
    simp
  · intro ev s
    rfl

/-- Witness for C7 at a concrete idle state. -/
theorem C7_idle_moves_no_mutation_witness :
    sampleState.mouseIsDown = false ∧
    handleMouseMove ⟨some [0], 2, 3⟩ sampleState = sampleState ∧
    (handleMouseUp sampleUp samplePressedNonNode).mouseIsDown = false :=
  ⟨rfl, C7_idle_moves_no_mutation.1 ⟨some [0], 2, 3⟩ sampleState rfl,
   C7_idle_moves_no_mutation.2 sampleUp samplePressedNonNode⟩

/-- C8: every press-start is recorded unconditionally, wherever it
landed, and the origin test is deferred to move handling: for a press
held on a strict descendant of the target form, a move handled with
interactionDepth set to shallow changes nothing, while the same move
handled after interactionDepth is set to deep accumulates its delta. -/
theorem C8_press_recorded_depth_deferred (s : DTState) (e : MouseEvent) :
    (handleMouseDown e s).lastMouseDown = some e ∧
    (handleMouseDown e s).mouseIsDown = true ∧
    (∀ (n : Node) (m : MouseEvent), e.target = some n →
      n ≠ s.targetForm → nodeContains s.targetForm n = true →
      (handleMouseMove m
          (withDepth InteractionDepth.shallow (handleMouseDown e s)) =
        withDepth InteractionDepth.shallow (handleMouseDown e s)) ∧
      (getCurrentTranslation
          (handleMouseMove m
            (withDepth InteractionDepth.deep (handleMouseDown e s))).form).1 =
        (getCurrentTranslation s.form).1 + ⟨m.movementX, m.movementY⟩) := by
  refine ⟨rfl, rfl, ?_⟩
  intro n m ht hne hdesc
  constructor
  · have hq : originQualifies
        (withDepth InteractionDepth.shallow
          (handleMouseDown e s)).interactionDepth
        (withDepth InteractionDepth.shallow
          (handleMouseDown e s)).targetForm e.target = false := by
      rw [ht]
      simp only [withDepth, handleMouseDown, originQualifies,
        beq_eq_false_iff_ne, ne_eq]
      exact hne
    exact handleMouseMove_nonqualifying m _ e rfl hq
  · have hq : originQualifies
        (withDepth InteractionDepth.deep
          (handleMouseDown e s)).interactionDepth
        (withDepth InteractionDepth.deep
          (handleMouseDown e s)).targetForm e.target = true := by
      rw [ht]
      simpa only [withDepth, handleMouseDown, originQualifies] using hdesc
    rw [handleMouseMove_qualifying m _ e rfl rfl hq]
    rw [getCurrentTranslation_fst]
    rfl

/-- Witness for C8 at a concrete press on a child of the target form. -/
theorem C8_press_recorded_witness :
    sampleChildDown.target = some [0, 1] ∧
    ([0, 1] : Node) ≠ sampleState.targetForm ∧
    nodeContains sampleState.targetForm [0, 1] = true ∧
    (handleMouseDown sampleChildDown sampleState).lastMouseDown =
      some sampleChildDown ∧
    (handleMouseDown sampleChildDown sampleState).mouseIsDown = true ∧
    (handleMouseMove ⟨some [9], 1, 2⟩
        (withDepth InteractionDepth.shallow
          (handleMouseDown sampleChildDown sampleState)) =
      withDepth InteractionDepth.shallow
        (handleMouseDown sampleChildDown sampleState)) ∧
    (getCurrentTranslation
        (handleMouseMove ⟨some [9], 1, 2⟩
          (withDepth InteractionDepth.deep
            (handleMouseDown sampleChildDown sampleState))).form).1 =
      (getCurrentTranslation sampleState.form).1 + ⟨1, 2⟩ := by
  obtain ⟨h1, h2, h3⟩ :=
    C8_press_recorded_depth_deferred sampleState sampleChildDown
  obtain ⟨h4, h5⟩ := h3 [0, 1] ⟨some [9], 1, 2⟩ rfl (by decide) (by decide)
  exact ⟨rfl, by decide, by decide, h1, h2, h4, h5⟩

/-- C9: the currentTranslation getter restores the translate style of
the target form to exactly the value it had before the read: although
it temporarily forces the style to the zero px pair to measure the
untranslated bounding box, the form state after the getter returns is
unchanged. -/
theorem C9_getter_restores_form (f : FormState) :
    (getCurrentTranslation f).2 = f :=
  getCurrentTranslation_snd f

/-- C10: the two DragTranslater classes in the source agree on move
handling whenever the interactionDepth of the second one is shallow:
on every state and move event both produce the identical state. -/
theorem C10_shallow_versions_agree (ev : MouseEvent) (s : DTState)
    (h : s.interactionDepth = InteractionDepth.shallow) :
    handleMouseMoveV1 ev s = handleMouseMove ev s := by
  unfold handleMouseMoveV1 handleMouseMove
  rw [h]
  cases hm : s.mouseIsDown with
  | false => simp
  | true =>
    simp only [Bool.true_eq_false, if_false]
    cases hl : s.lastMouseDown with
    | none => rfl
    | some lmd =>
      cases ht : lmd.target with
      | none => simp [ht]
      | some n =>
        by_cases hn : n = s.targetForm
        · simp [ht, hn]
        · simp [ht, hn]

/-- Witness for C10 at a concrete shallow state and move event. -/
theorem C10_shallow_versions_agree_witness :
    sampleState.interactionDepth = InteractionDepth.shallow ∧
    handleMouseMoveV1 ⟨some [0], 1, 2⟩ sampleState =
      handleMouseMove ⟨some [0], 1, 2⟩ sampleState :=
  ⟨rfl, C10_shallow_versions_agree ⟨some [0], 1, 2⟩ sampleState rfl⟩
